import Mathlib

/-!
Verification development for the ashare-screener repository.

Shallow embedding of the data-access layer (data_fetcher.py), the screening
pipeline (screener.py) and the session coordination logic (app.py).

Modelling conventions:
* pandas DataFrames are modelled as Lean lists of records, one structure per
  normalized schema (the fetcher renames upstream columns to fixed Chinese
  names before any predicate touches them, so a fixed record type is faithful);
* float values that may be missing or NaN are modelled as Option Rat, and
  the helper safeFloat mirrors the sources safe coercion with default 0;
* wall-clock times are rationals measured in seconds;
* a tri-state predicate result (True / False / None in the source) is
  modelled as Option Bool with the same three values;
* code paths that swallow exceptions are modelled with an explicit outcome
  type; code that can raise to its caller returns Except String.
-/

namespace AshareScreener

/-- Left-pad a string with the character 0 up to length n, mirroring
str.zfill(n) for the non-negative numeric strings that occur as stock codes
(longer strings are returned unchanged, exactly as zfill does). -/
def zfill (n : Nat) (s : String) : String :=
  if s.length < n then String.mk (List.replicate (n - s.length) '0') ++ s else s

/-- Sliding-window sublist test on character lists. -/
def containsSub (s pat : List Char) : Bool :=
  pat.isPrefixOf s ||
    match s with
    | [] => false
    | _ :: rest => containsSub rest pat

/-- Substring containment test, mirroring the Python expression pat in s
(per character, as Python strings are indexed). -/
def strContains (s pat : String) : Bool :=
  containsSub s.toList pat.toList

/-- Character-level prefix test, mirroring str.startswith. -/
def strStartsWith (s pat : String) : Bool :=
  pat.toList.isPrefixOf s.toList

/-- Character-level suffix test, mirroring str.endswith. -/
def strEndsWith (s pat : String) : Bool :=
  pat.toList.isSuffixOf s.toList

/-- Character-level slice from the front, mirroring s[:n]. -/
def strTake (s : String) (n : Nat) : String :=
  String.mk (s.toList.take n)

/-- Character-level slice dropping the front, mirroring s[n:]. -/
def strDrop (s : String) (n : Nat) : String :=
  String.mk (s.toList.drop n)

/-- Decimal parse of an all-digit string, mirroring the
str.isdigit-guarded int() conversions of the source: none on an empty or
non-digit string. -/
def strToNat? (s : String) : Option Nat :=
  if s.toList.isEmpty || !s.toList.all Char.isDigit then none
  else some (s.toList.foldl (fun acc c => acc * 10 + (c.toNat - 48)) 0)

/-- Mirrors screener._safe_float with its default of 0.0: a missing or NaN
or unparseable value becomes 0. -/
def safeFloat (v : Option ℚ) : ℚ := v.getD 0

/-- Mirrors the Python str() coercion applied to a possibly-NaN cell: a NaN
(modelled as none) stringifies to the literal text nan. -/
def pyStr (o : Option String) : String := o.getD "nan"

/-! ## data_fetcher.py: cache layer -/

/-- One persisted cache entry: the write time is the file modification time
(seconds); blob = none models a corrupt entry that fails to deserialize. -/
structure CacheEntry (α : Type) where
  writeTime : ℚ
  blob : Option α
deriving DecidableEq

/-- Mirrors data_fetcher.cache_get: absent file yields none; an entry whose
age exceeds max_age_hours * 3600 seconds yields none; otherwise the pickled
blob is loaded, with any deserialization failure caught and turned into
none. -/
def cache_get {α : Type} (entry : Option (CacheEntry α)) (max_age_hours now : ℚ) :
    Option α :=
  match entry with
  | none => none
  | some e => if max_age_hours * 3600 < now - e.writeTime then none else e.blob

/-! ## data_fetcher.py: rate limiter -/

def API_RATE_LIMIT : Nat := 180

def API_RATE_WINDOW : ℚ := 60

/-- The pruning pass of data_fetcher._rate_limit: drop every logged call
time strictly older than the 60 second window. -/
def pruneLog (log : List ℚ) (now : ℚ) : List ℚ :=
  log.filter (fun t => now - t < API_RATE_WINDOW)

/-- One call to data_fetcher._rate_limit, run under the api lock.  State is
the list of logged call times (oldest first); the input now is the wall
clock at entry.  Returns the new log and the time at which the call
actually proceeds (entry time, or entry time plus the sleep).  Note that
after the sleep the source clears the whole log and appends the stale
entry-time reading of now, exactly as modelled here. -/
def rateLimitStep (log : List ℚ) (now : ℚ) : List ℚ × ℚ :=
  let pruned := pruneLog log now
  if API_RATE_LIMIT ≤ pruned.length then
    let oldest := pruned.headD 0
    let wait := API_RATE_WINDOW - (now - oldest) + 1 / 10
    if 0 < wait then ([now], now + wait)
    else (pruned ++ [now], now)
  else (pruned ++ [now], now)

/-- Run a sequence of acquisitions through the rate limiter: from an initial
log and a list of arrival times, return the final log and the list of times
at which each call proceeded. -/
def simulate (log : List ℚ) : List ℚ → List ℚ × List ℚ
  | [] => (log, [])
  | now :: rest =>
    let s := rateLimitStep log now
    let r := simulate s.1 rest
    (r.1, s.2 :: r.2)

/-! ## data_fetcher.py: retrying upstream calls -/

/-- Outcome of one raw upstream call: a returned DataFrame (possibly empty)
or a raised exception. -/
inductive Attempt (α : Type) where
  | ok (df : List α)
  | exn (msg : String)
deriving DecidableEq

/-- An attempt that the retry loop treats as a failure: an exception, or a
returned payload that is None/empty. -/
def attemptFailed {α : Type} : Attempt α → Bool
  | .ok df => df.isEmpty
  | .exn _ => true

/-- Mirrors data_fetcher.safe_tushare_call, driven by the list of outcomes
of its (at most max_retries) upstream attempts.  A nonempty result is
returned at once; an empty result or an exception on a non-final attempt
moves on to the next attempt after the fixed delay; on the final attempt
both degrade to an empty DataFrame.  The Except codomain records whether an
exception can escape to the caller: every branch of the source returns
normally, so every branch here is Except.ok. -/
def safe_tushare_run {α : Type} : List (Attempt α) → Except String (List α)
  | [] => .ok []
  | .ok df :: rest => if df.isEmpty then safe_tushare_run rest else .ok df
  | .exn _ :: rest => safe_tushare_run rest

/-! ## data_fetcher.py: per-entity fetch (profit statement) -/

/-- One row of the normalized profit statement: 报告日 (end_date),
营业总收入 (total revenue) and 净利润 (net profit), the latter two possibly
NaN. -/
structure ProfitRow where
  endDate : String
  totalRevenue : Option ℚ
  netProfit : Option ℚ
deriving DecidableEq

/-- Insertion of one row into a list sorted by endDate descending. -/
def insertByDateDesc (r : ProfitRow) : List ProfitRow → List ProfitRow
  | [] => [r]
  | x :: xs => if x.endDate ≤ r.endDate then r :: x :: xs
               else x :: insertByDateDesc r xs

/-- Sort profit rows by end_date descending, as
df.sort_values(end_date, ascending=False) does in get_profit_statement. -/
def sortByDateDesc (l : List ProfitRow) : List ProfitRow :=
  l.foldr insertByDateDesc []

/-- Mirrors data_fetcher.get_profit_statement: serve a fresh cache entry if
present; otherwise run the retried upstream call, normalize and sort a
nonempty result, and return an empty DataFrame both when retries exhaust
and when any exception reaches the outer handler. -/
def get_profit_statement (cached : Option (List ProfitRow))
    (attempts : List (Attempt ProfitRow)) : List ProfitRow :=
  match cached with
  | some df => df
  | none =>
    match safe_tushare_run attempts with
    | .ok df => if df.isEmpty then df else sortByDateDesc df
    | .error _ => []

/-! ## data_fetcher.py: foundational stock-list fetch -/

/-- One row of the stock universe DataFrame: raw code and display name. -/
structure StockRow where
  code : String
  name : String
deriving DecidableEq

/-- State of the static backup snapshot file stock_list_backup.pkl. -/
inductive Backup where
  | absent
  | unreadable
  | ok (df : List StockRow)
deriving DecidableEq

/-- The diagnostic raised by get_stock_list when every source fails. -/
def stockListErrMsg : String := "无法获取股票列表：Tushare连接失败且无备用文件"

/-- Mirrors data_fetcher.get_stock_list: a fresh cached list is served
as-is; otherwise a nonempty upstream result (already degraded to empty by
safe_tushare_call on failure) is normalized and returned; otherwise the
static backup file is tried if it exists and loads; otherwise an explicit
exception is raised. -/
def get_stock_list (cached : Option (List StockRow)) (upstream : List StockRow)
    (backup : Backup) : Except String (List StockRow) :=
  match cached with
  | some df => .ok df
  | none =>
    if upstream.isEmpty then
      match backup with
      | .ok df => .ok df
      | .absent => .error stockListErrMsg
      | .unreadable => .error stockListErrMsg
    else .ok upstream

/-- Mirrors the retry_on_error decorator (max_retries attempts, fixed
delay): the outcomes of the successive attempts are given as a list; the
first success is returned, a failure on the final attempt is re-raised. -/
def retry_on_error {α : Type} : List (Except String α) → Except String α
  | [] => .error "no attempts"
  | [a] => a
  | a :: rest =>
    match a with
    | .ok r => .ok r
    | .error _ => retry_on_error rest

/-! ## app.py: screening session state -/

/-- The progress record stored in screening_state. -/
structure Progress where
  message : String
  stage : String
  remaining : Nat
deriving DecidableEq

/-- The global screening_state record of app.py, with the result payload
abstracted as a type parameter. -/
structure SessionState (α : Type) where
  is_running : Bool
  task_id : String
  progress : Progress
  results : Option α
  error : Option String
deriving DecidableEq

def initProgress : Progress := { message := "初始化...", stage := "init", remaining := 0 }

/-- Mirrors the state reset performed by start_screening under the session
lock: bind a fresh task id and clear progress, results and error. -/
def startSession {α : Type} (s : SessionState α) (tid : String) : SessionState α :=
  { s with
    is_running := true
    task_id := tid
    progress := initProgress
    results := none
    error := none }

/-- The lock-guarded writes a background run can perform, each tagged with
the id of the session on whose behalf it writes. -/
inductive SessionOp (α : Type) where
  | writeProgress (sid : String) (p : Progress)
  | writeResult (sid : String) (r : α)
  | writeError (sid : String) (e : String)
  | finish (sid : String)

/-- Session id carried by an operation. -/
def opSid {α : Type} : SessionOp α → String
  | .writeProgress sid _ => sid
  | .writeResult sid _ => sid
  | .writeError sid _ => sid
  | .finish sid => sid

/-- Apply one guarded write, mirroring the compare-task-id-then-write blocks
of app.py (progress_cb, the result save, the except handler, the finally
block): a write tagged with a non-current session id is discarded. -/
def applyOp {α : Type} (s : SessionState α) : SessionOp α → SessionState α
  | .writeProgress sid p => if s.task_id = sid then { s with progress := p } else s
  | .writeResult sid r => if s.task_id = sid then { s with results := some r } else s
  | .writeError sid e => if s.task_id = sid then { s with error := some e } else s
  | .finish sid => if s.task_id = sid then { s with is_running := false } else s

/-- Apply a sequence of guarded writes in the order the lock serializes
them. -/
def applyOps {α : Type} (s : SessionState α) (ops : List (SessionOp α)) : SessionState α :=
  ops.foldl applyOp s

/-- The tail of the background run function of app.py: on success the result
is saved, on an exception the error field is populated, and the finally
block clears the running flag; every write is guarded by the task-id
check. -/
def runEnd {α : Type} (s : SessionState α) (sid : String) (outcome : Except String α) :
    SessionState α :=
  let s2 :=
    match outcome with
    | .ok r => applyOp s (.writeResult sid r)
    | .error e => applyOp s (.writeError sid e)
  applyOp s2 (.finish sid)

/-! ## screener.py: keywords and helpers -/

/-- The SOE_KEYWORDS list of screener.py. -/
def SOE_KEYWORDS : List String :=
  ["国有", "国资", "财政局", "财政厅", "国投", "中央", "省人民政府",
   "市人民政府", "国家", "央企", "国企", "人民政府", "管理委员会",
   "国有资产", "SASAC", "财政部", "国务院", "中国人民", "省国资",
   "市国资", "区国资", "县国资", "经济开发区", "高新区管委会"]

/-- Mirrors screener._is_soe applied to the already-stringified controller
name: an empty string is not an SOE, otherwise any keyword occurrence
qualifies. -/
def is_soe (name : String) : Bool :=
  if name.isEmpty then false
  else SOE_KEYWORDS.any (fun kw => strContains name kw)

/-- Strip the sh/sz prefixes and left-pad to six digits, as the batch
filters normalize raw dataset codes. -/
def normCode (raw : String) : String :=
  zfill 6 ((raw.replace "sh" "").replace "sz" "")

/-! ## screener.py: Phase 1 batch filters -/

/-- One row of the normalized controller dataset: 证券代码,
实际控制人名称 (possibly NaN) and 控制类型. -/
structure ControllerRow where
  code : String
  controllerName : Option String
  ctrlType : String
deriving DecidableEq

/-- Mirrors screener.StockScreener._filter_soe: an entirely empty
controller dataset makes the step a no-op; otherwise keep exactly the
codes whose controller row marks them as state-owned. -/
def filter_soe (controller_df : List ControllerRow) (codes : List String) :
    List String :=
  if controller_df.isEmpty then codes
  else
    let soe_codes := controller_df.filterMap (fun r =>
      if is_soe (pyStr r.controllerName) || strContains r.ctrlType "国有" then
        some (normCode r.code)
      else none)
    codes.filter (fun c => soe_codes.contains c)

/-- One row of the normalized dividend dataset: 报告期 (end_date),
现金分红-每股派息 and 现金分红-现金分红比例, each possibly NaN. -/
structure DividendRow where
  endDate : String
  perShare : Option ℚ
  cashRate : Option ℚ
deriving DecidableEq

/-- The per-row cash dividend test of _filter_dividends: the per-share
payout, falling back to the cash dividend proportion when the former is
non-positive. -/
def rowCashDiv (r : DividendRow) : ℚ :=
  let cash_div := safeFloat r.perShare
  if cash_div ≤ 0 then safeFloat r.cashRate else cash_div

/-- The set of years (as a list, membership is what matters) in which a
dividend history shows a positive cash dividend.  Rows whose report date is
shorter than four characters are skipped; a non-numeric year prefix would
raise in the source, aborting the filter — such rows do not occur in the
normalized dataset and are modelled as skipped. -/
def cashYears (rows : List DividendRow) : List Nat :=
  rows.filterMap (fun r =>
    if r.endDate.length < 4 then none
    else
      match strToNat? (strTake r.endDate 4) with
      | none => none
      | some year => if 0 < rowCashDiv r then some year else none)

/-- Mirrors screener.StockScreener._filter_dividends: keep a code exactly
when its dividend history is nonempty and shows a positive cash dividend in
each of the five years preceding the current year.  Note the asymmetry with
the other batch filters: a code whose dividend payload is empty is skipped
(eliminated), with no empty-dataset no-op guard. -/
def filter_dividends (current_year : Nat)
    (dividend_history : String → List DividendRow) (codes : List String) :
    List String :=
  let required_years := List.range' (current_year - 5) 5
  codes.filter (fun code =>
    let div_df := dividend_history code
    !div_df.isEmpty && required_years.all (fun y => (cashYears div_df).contains y))

/-- One row of an issuance or convertible-bond dataset, reduced to the two
columns the filter locates by substring search (the first column whose name
contains 日期 resolves to 公告日期 and the first containing 代码 to
股票代码 for both normalized datasets). -/
structure IssueRow where
  code : String
  date : String
deriving DecidableEq

/-- Mirrors screener.StockScreener._filter_no_issuance: subtract from the
surviving set every code with an issuance record or a convertible-bond
record dated within the last five years (string comparison on dates, as in
the source); an empty dataset subtracts nothing. -/
def filter_no_issuance (five_years_ago : String) (issuance_df bond_df : List IssueRow)
    (codes : List String) : List String :=
  let issuers := (issuance_df.filter (fun r => five_years_ago ≤ r.date)).map
    (fun r => zfill 6 r.code)
  let bond_codes := (bond_df.filter (fun r => five_years_ago ≤ r.date)).map
    (fun r => strTake (zfill 6 r.code) 6)
  codes.filter (fun c => !issuers.contains c && !bond_codes.contains c)

/-- One row of the normalized buyback dataset: 股票代码 and 实施进度. -/
structure BuybackRow where
  code : String
  proc : String
deriving DecidableEq

/-- The buyback progress states _filter_buyback accepts. -/
def BUYBACK_STATES : List String :=
  ["完成", "实施中", "实施", "董事会预案", "股东大会通过"]

/-- Mirrors screener.StockScreener._filter_buyback: an entirely empty
buyback dataset makes the step a no-op; otherwise keep exactly the codes
with a buyback record in an accepted progress state. -/
def filter_buyback (buyback_df : List BuybackRow) (codes : List String) :
    List String :=
  if buyback_df.isEmpty then codes
  else
    let buyback_codes := buyback_df.filterMap (fun r =>
      if BUYBACK_STATES.any (fun kw => strContains r.proc kw) then
        some (normCode r.code)
      else none)
    codes.filter (fun c => buyback_codes.contains c)

/-! ## screener.py: Phase 2 per-entity predicates -/

/-- One row of the item/value stock-info DataFrame assembled by
get_stock_info. -/
structure InfoRow where
  item : String
  value : Option ℚ
deriving DecidableEq

/-- The latest-price lookup loop of _check_dividend_yield: the value of the
first row whose item is one of the three price labels, coerced through
safe_float; none when no row matches. -/
def findPrice (info : List InfoRow) : Option ℚ :=
  match info.find? (fun r =>
      r.item == "最新价" || r.item == "最新" || r.item == "股价") with
  | some r => some (safeFloat r.value)
  | none => none

/-- The dividend accumulation loop of _check_dividend_yield: sum the
positive per-share payouts of rows whose four-digit year prefix parses and
is at least current_year - 1. -/
def totalDiv (divs : List DividendRow) (current_year : Nat) : ℚ :=
  divs.foldl (fun acc r =>
    match strToNat? (strTake r.endDate 4) with
    | none => acc
    | some year =>
      if current_year - 1 ≤ year then
        let per_share := safeFloat r.perShare
        if 0 < per_share then acc + per_share else acc
      else acc) 0

/-- Mirrors screener.StockScreener._check_dividend_yield: none (skip) when
the info payload is empty or no positive price can be read; some false when
the dividend history is empty or the accumulated payout is non-positive;
otherwise pass exactly when the yield reaches 4 percent. -/
def check_dividend_yield (info : List InfoRow) (divs : List DividendRow)
    (current_year : Nat) : Option Bool :=
  if info.isEmpty then none
  else
    match findPrice info with
    | none => none
    | some price =>
      if price ≤ 0 then none
      else if divs.isEmpty then some false
      else
        let total_div := totalDiv divs current_year
        if total_div ≤ 0 then some false
        else some (decide (4 ≤ total_div / price * 100))

/-- The body of one iteration of the growth loop in _check_3year_growth,
comparing a statement against the next older one. -/
def pairOk (curr prev : ProfitRow) : Bool :=
  let curr_rev := safeFloat curr.totalRevenue
  let prev_rev := safeFloat prev.totalRevenue
  let curr_profit := safeFloat curr.netProfit
  let prev_profit := safeFloat prev.netProfit
  if prev_rev ≤ 0 ∨ prev_profit ≤ 0 then false
  else if curr_rev ≤ prev_rev ∨ curr_profit ≤ prev_profit then false
  else true

/-- The growth loop of _check_3year_growth over consecutive pairs of the
annual slice (newest first). -/
def growthChain : List ProfitRow → Bool
  | curr :: prev :: rest => pairOk curr prev && growthChain (prev :: rest)
  | _ => true

/-- Mirrors screener.StockScreener._check_3year_growth: none (skip) on an
empty payload; take the first four year-end rows of the (newest-first)
statement list; fewer than four is a hard fail; otherwise run the pairwise
growth checks. -/
def check_3year_growth (profit : List ProfitRow) : Option Bool :=
  if profit.isEmpty then none
  else
    let annual := (profit.filter (fun r => strEndsWith r.endDate "1231")).take 4
    if annual.length < 4 then some false
    else some (growthChain annual)

/-- Mirrors screener.StockScreener._check_quarterly_growth on the
newest-first statement list: none when fewer than six rows; fail when no
year-over-year row with the same quarter suffix and a different year
exists; otherwise require strict growth over both the year-over-year row
and the previous quarter, with positive comparands. -/
def check_quarterly_growth (profit : List ProfitRow) : Option Bool :=
  if profit.length < 6 then none
  else
    match profit with
    | latest :: prev_q :: rest =>
      let latest_date := latest.endDate
      let quarter_tag := strDrop latest_date 4
      match (prev_q :: rest).find? (fun r =>
          strEndsWith r.endDate quarter_tag &&
          !(strTake r.endDate 4 == strTake latest_date 4)) with
      | none => some false
      | some yoy =>
        let curr_rev := safeFloat latest.totalRevenue
        let prev_q_rev := safeFloat prev_q.totalRevenue
        let yoy_rev := safeFloat yoy.totalRevenue
        let curr_profit := safeFloat latest.netProfit
        let prev_q_profit := safeFloat prev_q.netProfit
        let yoy_profit := safeFloat yoy.netProfit
        if yoy_rev ≤ 0 ∨ yoy_profit ≤ 0 then some false
        else if curr_rev ≤ yoy_rev ∨ curr_profit ≤ yoy_profit then some false
        else if prev_q_rev ≤ 0 ∨ prev_q_profit ≤ 0 then some false
        else if curr_rev ≤ prev_q_rev ∨ curr_profit ≤ prev_q_profit then some false
        else some true
    | _ => none

/-- Mirrors screener.StockScreener._check_controller_stable: stable when
the controller dataset is empty or has no row for the code; otherwise
stable exactly when the non-NaN controller names for the code collapse to
at most one distinct value. -/
def check_controller_stable (ctrl_df : List ControllerRow) (code : String) :
    Option Bool :=
  if ctrl_df.isEmpty then some true
  else
    let stock_rows := ctrl_df.filter (fun r => normCode r.code == code)
    if stock_rows.isEmpty then some true
    else
      let controllers := (stock_rows.filterMap (fun r => r.controllerName)).dedup
      some (decide (controllers.length ≤ 1))

/-- One row of the normalized balance sheet. -/
structure BalanceRow where
  endDate : String
  moneyCap : Option ℚ
  stBorr : Option ℚ
  ltBorr : Option ℚ
  bondPayable : Option ℚ
deriving DecidableEq

/-- One row of the normalized pledge dataset (the column searches of the
source resolve to 股票代码 and 质押比例). -/
structure PledgeRow where
  code : String
  pledgeRate : Option ℚ
deriving DecidableEq

/-- Mirrors screener.StockScreener._check_cash_gt_debt: none (skip) on an
empty balance sheet; a pledge row for the code with a rate above 30 is an
immediate fail; otherwise compare cash against the debt sum (the source
never assigns pledge_amount, so it stays 0). -/
def check_cash_gt_debt (bs : List BalanceRow) (pledge_df : List PledgeRow)
    (code : String) : Option Bool :=
  match bs with
  | [] => none
  | latest :: _ =>
    let cash := safeFloat latest.moneyCap
    let short_debt := safeFloat latest.stBorr
    let long_debt := safeFloat latest.ltBorr
    let bonds := safeFloat latest.bondPayable
    let pledge_amount : ℚ := 0
    let total_debt := short_debt + long_debt + bonds + pledge_amount
    match pledge_df.filter (fun r => zfill 6 r.code == code) with
    | [] => some (decide (total_debt < cash))
    | p :: _ =>
      if 30 < safeFloat p.pledgeRate then some false
      else some (decide (total_debt < cash))

/-! ## screener.py: Phase 2 aggregation -/

/-- Outcome of submitting one per-entity check to the worker pool: a
returned tri-state value, or an exception raised inside the worker. -/
inductive CheckOutcome where
  | ok (r : Option Bool)
  | exn (msg : String)

/-- The retention rule of _run_individual: result is True keeps the code,
None (API failure) keeps the code, an exception keeps the code; only an
exact False drops it. -/
def keepOutcome : CheckOutcome → Bool
  | .ok (some true) => true
  | .ok none => true
  | .exn _ => true
  | .ok (some false) => false

/-- Mirrors screener.StockScreener._run_individual, abstracted over the
per-code outcome.  The source collects results in worker-completion order;
membership in the returned list is completion-order independent, and this
model fixes the submission order. -/
def run_individual (codes : List String) (check : String → CheckOutcome) :
    List String :=
  codes.filter (fun c => keepOutcome (check c))

/-! ## screener.py: the screening pipeline -/

/-- One entry of the stages funnel report. -/
structure StageResult where
  criterion : String
  stageBefore : Nat
  stageAfter : Nat
  eliminated : ℤ
deriving DecidableEq

/-- The Phase 1 loop of StockScreener.screen: run each batch filter in
order, appending a StageResult per step, and break out as soon as the
surviving set becomes empty. -/
def phase1 : List (String × (List String → List String)) → List String →
    List StageResult × List String
  | [], codes => ([], codes)
  | (name, f) :: rest, codes =>
    let afterCodes := f codes
    let stage : StageResult :=
      { criterion := name
        stageBefore := codes.length
        stageAfter := afterCodes.length
        eliminated := (codes.length : ℤ) - (afterCodes.length : ℤ) }
    if afterCodes.isEmpty then ([stage], afterCodes)
    else
      let r := phase1 rest afterCodes
      (stage :: r.1, r.2)

/-- The Phase 2 loop of StockScreener.screen: break when the surviving set
is empty, otherwise aggregate one per-entity criterion and append its
StageResult. -/
def phase2 : List (String × (String → CheckOutcome)) → List String →
    List StageResult × List String
  | [], codes => ([], codes)
  | (name, chk) :: rest, codes =>
    if codes.isEmpty then ([], codes)
    else
      let afterCodes := run_individual codes chk
      let stage : StageResult :=
        { criterion := name
          stageBefore := codes.length
          stageAfter := afterCodes.length
          eliminated := (codes.length : ℤ) - (afterCodes.length : ℤ) }
      let r := phase2 rest afterCodes
      (stage :: r.1, r.2)

/-- The universe construction at the top of StockScreener.screen: pad each
code to six characters, drop names containing ST or 退, and keep only main
board, ChiNext and STAR codes. -/
def universeOf (stock_list : List StockRow) : List String :=
  stock_list.filterMap (fun r =>
    let code := zfill 6 r.code
    if strContains r.name "ST" || strContains r.name "退" then none
    else if strStartsWith code "00" || strStartsWith code "60" ||
        strStartsWith code "30" || strStartsWith code "68" then some code
    else none)

/-- Every dataset the pipeline pulls through the fetcher, presented as the
already-fetched payloads (per-code datasets as functions of the code). -/
structure DataEnv where
  stock_list : List StockRow
  controller_df : List ControllerRow
  dividend_history : String → List DividendRow
  issuance_df : List IssueRow
  bond_df : List IssueRow
  buyback_df : List BuybackRow
  stock_info : String → List InfoRow
  profit_statement : String → List ProfitRow
  balance_sheet : String → List BalanceRow
  pledge_df : List PledgeRow
  current_year : Nat
  five_years_ago : String

/-- The all_batch_filters table of StockScreener.screen, with each filter
bound to its criterion id and label. -/
def batchFilters (env : DataEnv) :
    List (Nat × String × (List String → List String)) :=
  [(5, "央国企控股", filter_soe env.controller_df),
   (3, "连续5年现金分红", filter_dividends env.current_year env.dividend_history),
   (3, "无增发/发债", filter_no_issuance env.five_years_ago env.issuance_df env.bond_df),
   (6, "大股东回购", filter_buyback env.buyback_df)]

/-- The all_individual_filters table of StockScreener.screen.  The modelled
checks are total, so each worker outcome is an ordinary return. -/
def individualFilters (env : DataEnv) :
    List (Nat × String × (String → CheckOutcome)) :=
  [(4, "股息率>4%", fun c =>
      .ok (check_dividend_yield (env.stock_info c) (env.dividend_history c)
        env.current_year)),
   (1, "3年年报营收净利增长", fun c => .ok (check_3year_growth (env.profit_statement c))),
   (2, "季度同比环比增长", fun c => .ok (check_quarterly_growth (env.profit_statement c))),
   (7, "实控人稳定", fun c => .ok (check_controller_stable env.controller_df c)),
   (8, "现金>负债", fun c => .ok (check_cash_gt_debt (env.balance_sheet c)
      env.pledge_df c))]

/-- The result record assembled by StockScreener.screen (the data_dates
bookkeeping, which no predicate reads, is omitted). -/
structure ScreenResults where
  total_initial : Nat
  stages : List StageResult
  passed : List String
  stock_names : List (String × String)
  final_count : Nat
  selected_criteria : List Nat
deriving DecidableEq

/-- Mirrors screener.StockScreener.screen: derive the universe, run the
selected Phase 1 batch filters then the selected Phase 2 per-entity
criteria, and assemble the funnel report. -/
def screen (env : DataEnv) (selected_criteria : Option (List Nat)) : ScreenResults :=
  let selected := selected_criteria.getD [1, 2, 3, 4, 5, 6, 7, 8]
  let all_codes := universeOf env.stock_list
  let name_map := env.stock_list.map (fun r => (zfill 6 r.code, r.name))
  let filters := ((batchFilters env).filter (fun t => selected.contains t.1)).map
    (fun t => t.2)
  let r1 := phase1 filters all_codes
  let ifilters := ((individualFilters env).filter (fun t => selected.contains t.1)).map
    (fun t => t.2)
  let r2 := phase2 ifilters r1.2
  { total_initial := all_codes.length
    stages := r1.1 ++ r2.1
    passed := r2.2
    stock_names := name_map
    final_count := r2.2.length
    selected_criteria := selected }

/-! ## Theorems -/

/-- C1: the Phase 2 aggregation eliminates a code exactly when its check
returned the value False; a check returning True, returning None
(indeterminate) or raising an exception always leaves the code in the
surviving list, so data unavailability never disqualifies an entity. -/
theorem C1_run_individual_elimination (codes : List String)
    (check : String → CheckOutcome) (c : String) :
    c ∈ run_individual codes check ↔
      c ∈ codes ∧ check c ≠ CheckOutcome.ok (some false) := by
  unfold run_individual
  rw [List.mem_filter]
  refine and_congr_right fun _ => ?_
  cases h : check c with
  | ok r =>
    cases r with
    | none => simp [keepOutcome]
    | some b => cases b <;> simp [keepOutcome]
  | exn m => simp [keepOutcome]

/-- C3: cache_get returns the stored payload exactly when the entry age is
within the TTL in hours; a missing entry, an expired entry and a corrupt
blob all yield none, and no branch raises. -/
theorem C3_cache_get_ttl {α : Type} (w t now : ℚ) (p : α) (b : Option α) :
    (cache_get (some ⟨w, some p⟩) t now = some p ↔ now - w ≤ t * 3600) ∧
    cache_get (none : Option (CacheEntry α)) t now = none ∧
    (t * 3600 < now - w → cache_get (some ⟨w, b⟩) t now = none) ∧
    cache_get (some ⟨w, (none : Option α)⟩) t now = none := by
  refine ⟨?_, rfl, ?_, ?_⟩
  · show (if t * 3600 < now - w then none else some p) = some p ↔ now - w ≤ t * 3600
    rcases lt_or_le (t * 3600) (now - w) with h | h
    · rw [if_pos h]
      exact ⟨fun hc => absurd hc (by simp), fun hc => absurd h (not_lt.mpr hc)⟩
    · rw [if_neg (not_lt.mpr h)]
      exact ⟨fun _ => h, fun _ => rfl⟩
  · intro h
    show (if t * 3600 < now - w then none else b) = none
    rw [if_pos h]
  · show (if t * 3600 < now - w then none else none) = none
    split_ifs <;> rfl

/-- Witness for C3: an entry written at time 0 and read at time 7200 with a
one hour TTL is expired and yields none. -/
theorem C3_cache_get_ttl_witness :
    (1 : ℚ) * 3600 < 7200 - 0 ∧
      cache_get (some ⟨0, some (1 : Nat)⟩) 1 7200 = none :=
  ⟨by norm_num, (C3_cache_get_ttl 0 1 7200 1 (some 1)).2.2.1 (by norm_num)⟩

/-- The retry loop of safe_tushare_call returns normally on every input:
no exception escapes to the caller. -/
theorem safe_tushare_run_ok {α : Type} :
    ∀ l : List (Attempt α), ∃ df, safe_tushare_run l = .ok df
  | [] => ⟨[], rfl⟩
  | .ok df :: rest => by
    by_cases h : df.isEmpty
    · simpa [safe_tushare_run, h] using safe_tushare_run_ok rest
    · exact ⟨df, by simp [safe_tushare_run, h]⟩
  | .exn m :: rest => by
    simpa [safe_tushare_run] using safe_tushare_run_ok rest

/-- When every attempt fails (raises, or returns an empty payload), the
retry loop degrades to an empty payload. -/
theorem safe_tushare_run_failed {α : Type} :
    ∀ l : List (Attempt α), (∀ a ∈ l, attemptFailed a = true) →
      safe_tushare_run l = .ok []
  | [], _ => rfl
  | .ok df :: rest, h => by
    have hdf : df.isEmpty = true := h _ (List.mem_cons_self _ _)
    have hrest := safe_tushare_run_failed rest fun a ha => h a (List.mem_cons_of_mem _ ha)
    simp [safe_tushare_run, hdf, hrest]
  | .exn m :: rest, h => by
    have hrest := safe_tushare_run_failed rest fun a ha => h a (List.mem_cons_of_mem _ ha)
    simp [safe_tushare_run, hrest]

/-- C9: for non-foundational fetches, the retrying caller never propagates
an exception, exhausting the bounded retries yields an empty payload, and
the per-entity profit-statement fetch then returns the empty DataFrame. -/
theorem C9_retries_degrade_to_empty {α : Type} (attempts : List (Attempt α))
    (pattempts : List (Attempt ProfitRow)) :
    (∃ df, safe_tushare_run attempts = .ok df) ∧
    ((∀ a ∈ attempts, attemptFailed a = true) →
      safe_tushare_run attempts = .ok []) ∧
    ((∀ a ∈ pattempts, attemptFailed a = true) →
      get_profit_statement none pattempts = []) := by
  refine ⟨safe_tushare_run_ok attempts, safe_tushare_run_failed attempts, fun h => ?_⟩
  unfold get_profit_statement
  rw [safe_tushare_run_failed pattempts h]
  rfl

/-- Witness for C9: three failed attempts (exception, empty payload,
exception) degrade to an empty DataFrame at both layers. -/
theorem C9_retries_degrade_to_empty_witness :
    safe_tushare_run ([.exn "timeout", .ok [], .exn "disconnect"] : List (Attempt Nat)) = .ok [] ∧
    get_profit_statement none ([.ok [], .exn "timeout"] : List (Attempt ProfitRow)) = [] := by
  have h := C9_retries_degrade_to_empty
    ([.exn "timeout", .ok [], .exn "disconnect"] : List (Attempt Nat))
    ([.ok [], .exn "timeout"] : List (Attempt ProfitRow))
  exact ⟨h.2.1 (by decide), h.2.2 (by decide)⟩

/-- A guarded session write tagged with a non-current session id is a
no-op. -/
theorem applyOp_stale {α : Type} (s : SessionState α) (op : SessionOp α)
    (h : s.task_id ≠ opSid op) : applyOp s op = s := by
  cases op with
  | writeProgress sid p => simp only [opSid] at h; simp only [applyOp]; rw [if_neg h]
  | writeResult sid r => simp only [opSid] at h; simp only [applyOp]; rw [if_neg h]
  | writeError sid e => simp only [opSid] at h; simp only [applyOp]; rw [if_neg h]
  | finish sid => simp only [opSid] at h; simp only [applyOp]; rw [if_neg h]

/-- A sequence of guarded writes, all tagged with non-current session ids,
leaves the session state unchanged. -/
theorem applyOps_stale {α : Type} (s : SessionState α) :
    ∀ ops : List (SessionOp α), (∀ op ∈ ops, s.task_id ≠ opSid op) →
      applyOps s ops = s
  | [], _ => rfl
  | op :: rest, h => by
    have h1 : applyOp s op = s := applyOp_stale s op (h op (List.mem_cons_self _ _))
    have h2 := applyOps_stale s rest fun o ho => h o (List.mem_cons_of_mem _ ho)
    simp only [applyOps, List.foldl_cons, h1]
    exact h2

/-- C5: once session B has started, every progress, result or error write
tagged with a different (older) session id is discarded under the lock, so
the observable state never reflects the older run; the fresh state also
starts with no result and no error. -/
theorem C5_stale_session_writes_discarded {α : Type} (s : SessionState α)
    (tidB : String) (ops : List (SessionOp α))
    (h : ∀ op ∈ ops, opSid op ≠ tidB) :
    applyOps (startSession s tidB) ops = startSession s tidB ∧
    (startSession s tidB).results = none ∧
    (startSession s tidB).error = none := by
  refine ⟨?_, rfl, rfl⟩
  exact applyOps_stale _ ops fun op hop => fun hc => h op hop hc.symm

/-- A concrete idle session state used by witnesses. -/
def idleState : SessionState Nat :=
  { is_running := false
    task_id := ""
    progress := initProgress
    results := none
    error := none }

/-- A concrete running session state used by witnesses. -/
def runningState : SessionState Nat :=
  { is_running := true
    task_id := "t1"
    progress := initProgress
    results := none
    error := none }

/-- Witness for C5: writes by stale session a after session b starts leave
the state exactly as b initialized it. -/
theorem C5_stale_session_writes_discarded_witness :
    applyOps (startSession idleState "b")
        [.writeProgress "a" ⟨"stage one", "init", 7⟩, .writeResult "a" 5,
         .writeError "a" "boom", .finish "a"] =
      startSession idleState "b" :=
  (C5_stale_session_writes_discarded idleState "b" _ (by decide)).1

/-- C8: with the cache empty, the upstream fetch degraded to an empty
payload and the backup snapshot absent or unreadable, get_stock_list
raises its explicit error (also through the retry decorator), and the run
records the error on the still-current session, clears the running flag
and stores no result. -/
theorem C8_foundational_failure {α : Type} (backup : Backup) (s : SessionState α)
    (sid : String) (hb : backup = .absent ∨ backup = .unreadable)
    (hsid : s.task_id = sid) :
    get_stock_list none [] backup = .error stockListErrMsg ∧
    retry_on_error (List.replicate 2 (get_stock_list none [] backup)) =
      .error stockListErrMsg ∧
    (runEnd s sid (.error stockListErrMsg)).error = some stockListErrMsg ∧
    (runEnd s sid (.error stockListErrMsg)).is_running = false ∧
    (runEnd s sid (.error stockListErrMsg)).results = s.results := by
  have h1 : get_stock_list none [] backup = .error stockListErrMsg := by
    rcases hb with h | h <;> subst h <;> rfl
  refine ⟨h1, by rw [h1]; rfl, ?_, ?_, ?_⟩ <;>
    simp [runEnd, applyOp, hsid]

/-- Witness for C8: a failed run on the current session surfaces the
stock-list error in the session error field. -/
theorem C8_foundational_failure_witness :
    get_stock_list none [] .absent = .error stockListErrMsg ∧
    (runEnd runningState "t1" (.error stockListErrMsg)).error = some stockListErrMsg :=
  ⟨(C8_foundational_failure .absent runningState "t1" (Or.inl rfl) rfl).1,
   (C8_foundational_failure .absent runningState "t1" (Or.inl rfl) rfl).2.2.1⟩

/-- Running a single batch step of the Phase 1 loop: the appended
StageResult records the before and after counts and their difference. -/
theorem phase1_single (n : String) (f : List String → List String)
    (codes : List String) :
    phase1 [(n, f)] codes =
      ([{ criterion := n, stageBefore := codes.length,
          stageAfter := (f codes).length,
          eliminated := (codes.length : ℤ) - ((f codes).length : ℤ) }], f codes) := by
  unfold phase1
  by_cases h : (f codes).isEmpty
  · simp only [h, if_true]
  · simp only [h, if_false]
    unfold phase1
    rfl

/-- An empty controller dataset makes the SOE step a no-op. -/
theorem filter_soe_empty (codes : List String) : filter_soe [] codes = codes := rfl

/-- Empty issuance and bond datasets make the no-issuance step a no-op. -/
theorem filter_no_issuance_empty (d : String) (codes : List String) :
    filter_no_issuance d [] [] codes = codes := by
  unfold filter_no_issuance
  simp

/-- An empty buyback dataset makes the buyback step a no-op. -/
theorem filter_buyback_empty (codes : List String) :
    filter_buyback [] codes = codes := rfl

/-- An entirely unavailable dividend dataset (empty per-code payloads)
makes the dividend step eliminate every code. -/
theorem filter_dividends_empty (y : Nat) (codes : List String) :
    filter_dividends y (fun _ => []) codes = [] := by
  unfold filter_dividends
  simp

/-- C2 counterexample: with the dividend dataset entirely unavailable the
dividend batch step does not return its input unchanged — it eliminates
the whole surviving set. -/
theorem C2_counterexample :
    filter_dividends 2025 (fun _ => []) ["000001"] = [] ∧
    (["000001"] : List String) ≠ [] :=
  ⟨rfl, by decide⟩

/-- C2 amended: the SOE, no-issuance and buyback batch steps with an
entirely unavailable dataset are identity transforms whose StageResult
records eliminated = 0; the dividend batch step with an entirely
unavailable dataset instead eliminates every code, recording eliminated =
the whole surviving count. -/
theorem C2_amended_empty_dataset (codes : List String) (y : Nat)
    (d n1 n2 n3 n4 : String) :
    phase1 [(n1, filter_soe [])] codes =
      ([{ criterion := n1, stageBefore := codes.length,
          stageAfter := codes.length, eliminated := 0 }], codes) ∧
    phase1 [(n2, filter_no_issuance d [] [])] codes =
      ([{ criterion := n2, stageBefore := codes.length,
          stageAfter := codes.length, eliminated := 0 }], codes) ∧
    phase1 [(n3, filter_buyback [])] codes =
      ([{ criterion := n3, stageBefore := codes.length,
          stageAfter := codes.length, eliminated := 0 }], codes) ∧
    phase1 [(n4, filter_dividends y (fun _ => []))] codes =
      ([{ criterion := n4, stageBefore := codes.length,
          stageAfter := 0, eliminated := (codes.length : ℤ) }], []) := by
  refine ⟨?_, ?_, ?_, ?_⟩
  · rw [phase1_single, filter_soe_empty]
    simp
  · rw [phase1_single, filter_no_issuance_empty]
    simp
  · rw [phase1_single, filter_buyback_empty]
    simp
  · rw [phase1_single, filter_dividends_empty]
    simp

/-- C7: the dividend-yield predicate is indeterminate when no positive
latest price is available, fails when there are no dividend records or the
accumulated trailing cash dividend is zero, and otherwise passes exactly
when the yield reaches the 4 percent threshold. -/
theorem C7_dividend_yield_cases (info : List InfoRow) (divs : List DividendRow)
    (y : Nat) :
    (findPrice info = none → check_dividend_yield info divs y = none) ∧
    (∀ p, findPrice info = some p → p ≤ 0 →
      check_dividend_yield info divs y = none) ∧
    (∀ p, findPrice info = some p → 0 < p → divs = [] →
      check_dividend_yield info divs y = some false) ∧
    (∀ p, findPrice info = some p → 0 < p → divs ≠ [] → totalDiv divs y = 0 →
      check_dividend_yield info divs y = some false) ∧
    (∀ p, findPrice info = some p → 0 < p → divs ≠ [] → 0 < totalDiv divs y →
      (check_dividend_yield info divs y = some true ↔
        4 ≤ totalDiv divs y / p * 100)) := by
  by_cases hi : info.isEmpty
  · have hp : findPrice info = none := by
      cases info with
      | nil => rfl
      | cons a l => simp at hi
    refine ⟨fun _ => ?_, fun p hpr => ?_, fun p hpr => ?_, fun p hpr => ?_,
      fun p hpr => ?_⟩
    · unfold check_dividend_yield
      rw [if_pos hi]
    all_goals rw [hp] at hpr; exact Option.noConfusion hpr
  · refine ⟨fun hp => ?_, fun p hp hple => ?_, fun p hp hpos hd => ?_,
      fun p hp hpos hd ht => ?_, fun p hp hpos hd ht => ?_⟩
    · unfold check_dividend_yield
      rw [if_neg hi, hp]
    · unfold check_dividend_yield
      rw [if_neg hi, hp]
      simp only [if_pos hple]
    · unfold check_dividend_yield
      rw [if_neg hi, hp]
      simp only [if_neg (not_le.mpr hpos)]
      subst hd
      rfl
    · unfold check_dividend_yield
      rw [if_neg hi, hp]
      simp only [if_neg (not_le.mpr hpos)]
      have hde : divs.isEmpty = false := by
        cases divs with
        | nil => exact absurd rfl hd
        | cons a l => rfl
      rw [hde]
      simp only [Bool.false_eq_true, if_false]
      rw [if_pos (le_of_eq ht)]
    · unfold check_dividend_yield
      rw [if_neg hi, hp]
      simp only [if_neg (not_le.mpr hpos)]
      have hde : divs.isEmpty = false := by
        cases divs with
        | nil => exact absurd rfl hd
        | cons a l => rfl
      rw [hde]
      simp only [Bool.false_eq_true, if_false]
      rw [if_neg (not_le.mpr ht)]
      simp [decide_eq_true_eq]

/-- Witness for C7, the two worked examples of the specification: price 20
with trailing dividends 1.0 yields 5 percent and passes; price 20 with
dividends 0.5 yields 2.5 percent and does not pass. -/
theorem C7_dividend_yield_cases_witness :
    check_dividend_yield [⟨"最新价", some 20⟩] [⟨"20250630", some 1, none⟩] 2025 =
      some true ∧
    check_dividend_yield [⟨"最新价", some 20⟩] [⟨"20250630", some (1 / 2), none⟩] 2025 ≠
      some true := by
  have hstr : strToNat? (strTake "20250630" 4) = some 2025 := by decide
  have ht1 : totalDiv [⟨"20250630", some 1, none⟩] 2025 = 1 := by
    simp [totalDiv, safeFloat, hstr]
  have ht2 : totalDiv [⟨"20250630", some (1 / 2), none⟩] 2025 = 1 / 2 := by
    simp [totalDiv, safeFloat, hstr]
  constructor
  · refine ((C7_dividend_yield_cases [⟨"最新价", some 20⟩]
        [⟨"20250630", some 1, none⟩] 2025).2.2.2.2 20 rfl (by norm_num)
        (by simp) ?_).mpr ?_
    · rw [ht1]
      norm_num
    · rw [ht1]
      norm_num
  · intro hc
    have h := ((C7_dividend_yield_cases [⟨"最新价", some 20⟩]
        [⟨"20250630", some (1 / 2), none⟩] 2025).2.2.2.2 20 rfl (by norm_num)
        (by simp) (by rw [ht2]; norm_num)).mp hc
    rw [ht2] at h
    norm_num at h

/-- The specification reading of one growth pair: the earlier figures are
strictly positive and both revenue and net profit strictly increase. -/
def pairProp (curr prev : ProfitRow) : Prop :=
  0 < safeFloat prev.totalRevenue ∧ 0 < safeFloat prev.netProfit ∧
  safeFloat prev.totalRevenue < safeFloat curr.totalRevenue ∧
  safeFloat prev.netProfit < safeFloat curr.netProfit

/-- The loop body of the growth check agrees with its specification
reading. -/
theorem pairOk_iff (curr prev : ProfitRow) :
    pairOk curr prev = true ↔ pairProp curr prev := by
  unfold pairOk pairProp
  dsimp only
  split_ifs with h1 h2
  · simp only [Bool.false_eq_true, false_iff]
    rintro ⟨a, b, c, d⟩
    rcases h1 with h | h <;> linarith
  · simp only [Bool.false_eq_true, false_iff]
    rintro ⟨a, b, c, d⟩
    rcases h2 with h | h <;> linarith
  · simp only [true_iff]
    push_neg at h1 h2
    exact ⟨h1.1, h1.2, h2.1, h2.2⟩

/-- C6 counterexample: an entirely empty profit payload yields
indeterminate (none), not the fail (some false) the claim requires for
fewer than four annual records. -/
theorem C6_counterexample :
    check_3year_growth [] = none ∧ (none : Option Bool) ≠ some false :=
  ⟨rfl, by decide⟩

/-- C6 amended: on a nonempty profit payload the predicate fails outright
when fewer than four year-end records exist, and with exactly four records
passes iff every one of the three consecutive year pairs has strictly
positive earlier figures and strictly increasing revenue and net profit;
an entirely empty payload is indeterminate instead. -/
theorem C6_amended_growth (profit : List ProfitRow) (hne : profit ≠ []) :
    (((profit.filter (fun r => strEndsWith r.endDate "1231")).take 4).length < 4 →
      check_3year_growth profit = some false) ∧
    (∀ a b c d,
      (profit.filter (fun r => strEndsWith r.endDate "1231")).take 4 = [a, b, c, d] →
      (check_3year_growth profit = some true ↔
        pairProp a b ∧ pairProp b c ∧ pairProp c d)) := by
  have hi : profit.isEmpty = false := by
    cases profit with
    | nil => exact absurd rfl hne
    | cons x l => rfl
  constructor
  · intro h4
    unfold check_3year_growth
    rw [if_neg (by simp [hi]), if_pos h4]
  · intro a b c d heq
    have hlen : ¬((profit.filter (fun r => strEndsWith r.endDate "1231")).take 4).length < 4 := by
      rw [heq]
      simp
    unfold check_3year_growth
    rw [if_neg (by simp [hi]), if_neg hlen, heq]
    simp [growthChain, Bool.and_eq_true, pairOk_iff, and_assoc]

/-- Witness for C6, the worked growth fixtures of the specification: four
annual records with figures 100, 90, 80, 70 (newest first) pass, and the
same data truncated to three records fails. -/
theorem C6_amended_growth_witness :
    check_3year_growth
      [⟨"20241231", some 100, some 100⟩, ⟨"20231231", some 90, some 90⟩,
       ⟨"20221231", some 80, some 80⟩, ⟨"20211231", some 70, some 70⟩] = some true ∧
    check_3year_growth
      [⟨"20241231", some 100, some 100⟩, ⟨"20231231", some 90, some 90⟩,
       ⟨"20221231", some 80, some 80⟩] = some false := by
  constructor
  · exact ((C6_amended_growth _ (by simp)).2
      ⟨"20241231", some 100, some 100⟩ ⟨"20231231", some 90, some 90⟩
      ⟨"20221231", some 80, some 80⟩ ⟨"20211231", some 70, some 70⟩
      (by decide)).mpr (by norm_num [pairProp, safeFloat])
  · exact (C6_amended_growth _ (by simp)).1 (by decide)

/-- Filtering a constant list keeps it whole when the predicate accepts
the repeated element. -/
theorem filter_replicate_of_pos {α : Type} (p : α → Bool) (a : α)
    (h : p a = true) : ∀ n, (List.replicate n a).filter p = List.replicate n a
  | 0 => rfl
  | n + 1 => by
    simp only [List.replicate_succ, List.filter_cons, h, if_true]
    rw [filter_replicate_of_pos p a h n]

/-- Filtering a constant list empties it when the predicate rejects the
repeated element. -/
theorem filter_replicate_of_neg {α : Type} (p : α → Bool) (a : α)
    (h : p a = false) : ∀ n, (List.replicate n a).filter p = []
  | 0 => rfl
  | n + 1 => by
    simp only [List.replicate_succ, List.filter_cons, h]
    exact filter_replicate_of_neg p a h n

/-- Pruning a log of calls all made at the present instant keeps every
entry. -/
theorem pruneLog_replicate_same (k : Nat) (t : ℚ) :
    pruneLog (List.replicate k t) t = List.replicate k t :=
  filter_replicate_of_pos _ t (by norm_num [API_RATE_WINDOW]) k

/-- Below capacity, a call logged at the same instant as the whole log
proceeds immediately and extends the log. -/
theorem rateLimitStep_below (k : Nat) (t : ℚ) (hk : k < API_RATE_LIMIT) :
    rateLimitStep (List.replicate k t) t = (List.replicate (k + 1) t, t) := by
  unfold rateLimitStep
  rw [pruneLog_replicate_same]
  simp only [List.length_replicate]
  rw [if_neg (by omega)]
  rw [← List.replicate_succ' k t]

/-- Feeding m simultaneous arrivals into a log of k identical timestamps,
with k + m within capacity, proceeds each arrival immediately. -/
theorem simulate_replicate_fill (t : ℚ) :
    ∀ (m k : Nat), k + m ≤ API_RATE_LIMIT →
      simulate (List.replicate k t) (List.replicate m t) =
        (List.replicate (k + m) t, List.replicate m t)
  | 0, k, _ => by simp [simulate]
  | m + 1, k, h => by
    have hrec := simulate_replicate_fill t m (k + 1) (by omega)
    rw [List.replicate_succ]
    simp only [simulate]
    rw [rateLimitStep_below k t (by omega)]
    simp only [hrec]
    rw [show k + 1 + m = k + (m + 1) by omega]

/-- Simulation splits over concatenated arrival schedules. -/
theorem simulate_append (xs : List ℚ) : ∀ (log : List ℚ) (ys : List ℚ),
    simulate log (xs ++ ys) =
      ((simulate (simulate log xs).1 ys).1,
       (simulate log xs).2 ++ (simulate (simulate log xs).1 ys).2) := by
  induction xs with
  | nil => intro log ys; simp [simulate]
  | cons x xs ih =>
    intro log ys
    simp only [List.cons_append, simulate, List.append_eq]
    rw [ih]

/-- The arrival schedule of the counterexample: 181 calls at time 0, then
180 calls at the instant the blocked call wakes up. -/
def badSchedule : List ℚ :=
  List.replicate 180 0 ++ 0 :: List.replicate 180 (601 / 10)

/-- At capacity with every logged call at the present instant, the call
sleeps the full window plus margin, and the log is reset to the stale
entry time. -/
theorem rateLimitStep_full_zero :
    rateLimitStep (List.replicate 180 (0 : ℚ)) 0 = ([0], 601 / 10) := by
  unfold rateLimitStep
  rw [pruneLog_replicate_same]
  simp only [List.length_replicate]
  rw [if_pos (by norm_num [API_RATE_LIMIT])]
  rw [show (List.replicate 180 (0 : ℚ)).headD 0 = 0 from by
    rw [List.replicate_succ]
    rfl]
  rw [if_pos (by norm_num [API_RATE_WINDOW])]
  norm_num [API_RATE_WINDOW]

/-- A call arriving just after the stale log entry has left the window
finds the log effectively empty and proceeds immediately. -/
theorem rateLimitStep_after_reset :
    rateLimitStep [(0 : ℚ)] (601 / 10) = ([601 / 10], 601 / 10) := by
  unfold rateLimitStep pruneLog
  rw [show List.filter (fun t => decide ((601 : ℚ) / 10 - t < API_RATE_WINDOW)) [0] = [] from by
    simp [API_RATE_WINDOW]
    norm_num]
  rw [if_neg (by norm_num [API_RATE_LIMIT])]
  rfl

/-- The proceed times produced by the counterexample schedule. -/
theorem simulate_badSchedule :
    (simulate [] badSchedule).2 =
      List.replicate 180 (0 : ℚ) ++ 601 / 10 :: List.replicate 180 (601 / 10) := by
  unfold badSchedule
  rw [simulate_append]
  have h1 : simulate [] (List.replicate 180 (0 : ℚ)) =
      (List.replicate 180 0, List.replicate 180 0) := by
    have := simulate_replicate_fill 0 180 0 (by norm_num [API_RATE_LIMIT])
    simpa using this
  rw [h1]
  have h2 : simulate (List.replicate 180 (0 : ℚ)) (0 :: List.replicate 180 (601 / 10)) =
      (List.replicate 180 (601 / 10), 601 / 10 :: List.replicate 180 (601 / 10)) := by
    rw [show simulate (List.replicate 180 (0 : ℚ)) (0 :: List.replicate 180 (601 / 10)) =
        ((simulate (rateLimitStep (List.replicate 180 (0 : ℚ)) 0).1 (List.replicate 180 (601 / 10))).1,
         (rateLimitStep (List.replicate 180 (0 : ℚ)) 0).2 ::
           (simulate (rateLimitStep (List.replicate 180 (0 : ℚ)) 0).1 (List.replicate 180 (601 / 10))).2)
      from rfl]
    rw [rateLimitStep_full_zero]
    have h3 : simulate [(0 : ℚ)] (List.replicate 180 (601 / 10)) =
        (List.replicate 180 (601 / 10), List.replicate 180 (601 / 10)) := by
      rw [show (180 : Nat) = 179 + 1 from rfl, List.replicate_succ]
      rw [show simulate [(0 : ℚ)] (601 / 10 :: List.replicate 179 (601 / 10)) =
          ((simulate (rateLimitStep [(0 : ℚ)] (601 / 10)).1 (List.replicate 179 (601 / 10))).1,
           (rateLimitStep [(0 : ℚ)] (601 / 10)).2 ::
             (simulate (rateLimitStep [(0 : ℚ)] (601 / 10)).1 (List.replicate 179 (601 / 10))).2)
        from rfl]
      rw [rateLimitStep_after_reset]
      have hfill := simulate_replicate_fill (601 / 10) 179 1 (by norm_num [API_RATE_LIMIT])
      rw [List.replicate_one] at hfill
      rw [hfill, ← List.replicate_succ, show (1 : Nat) + 179 = 179 + 1 from rfl]
    rw [h3]
  rw [h2]

/-- C4 counterexample: under the schedule badSchedule, 181 calls proceed
inside the rolling 60-second window stretching back from the wake-up
instant, exceeding the configured limit of 180 — the coarse log reset
after a sleep forgets in-window history. -/
theorem C4_counterexample :
    API_RATE_LIMIT <
      ((simulate [] badSchedule).2.filter
        (fun p => decide (601 / 10 - API_RATE_WINDOW < p) && decide (p ≤ 601 / 10))).length := by
  rw [simulate_badSchedule]
  rw [List.filter_append]
  rw [filter_replicate_of_neg _ _ (by norm_num [API_RATE_WINDOW]) 180]
  rw [List.filter_cons]
  rw [if_pos (by norm_num [API_RATE_WINDOW])]
  rw [filter_replicate_of_pos _ _ (by norm_num [API_RATE_WINDOW]) 180]
  simp only [List.nil_append, List.length_cons, List.length_replicate, API_RATE_LIMIT]
  omega

/-- C4 amended: when 180 calls are already logged inside the rolling
window, the next call to the rate limiter sleeps until the oldest logged
call has left the 60-second window (plus a 0.1 second margin) before
proceeding. -/
theorem C4_amended_blocking (log : List ℚ) (now oldest : ℚ)
    (hfull : API_RATE_LIMIT ≤ (pruneLog log now).length)
    (hold : (pruneLog log now).head? = some oldest) :
    (rateLimitStep log now).2 = oldest + API_RATE_WINDOW + 1 / 10 ∧
    oldest + API_RATE_WINDOW < (rateLimitStep log now).2 := by
  have hmem : oldest ∈ pruneLog log now := by
    cases hpl : pruneLog log now with
    | nil => rw [hpl] at hold; cases hold
    | cons x l =>
      rw [hpl] at hold
      simp only [List.head?_cons, Option.some.injEq] at hold
      rw [← hold]
      exact List.mem_cons_self x l
  have hin : now - oldest < API_RATE_WINDOW := by
    have := List.of_mem_filter hmem
    simpa using this
  have hwait : 0 < API_RATE_WINDOW - (now - oldest) + 1 / 10 := by
    linarith
  have hhd : (pruneLog log now).headD 0 = oldest := by
    cases hpl : pruneLog log now with
    | nil => rw [hpl] at hold; cases hold
    | cons x l =>
      rw [hpl] at hold
      simp only [List.head?_cons, Option.some.injEq] at hold
      simp [hold]
  constructor
  · unfold rateLimitStep
    rw [if_pos hfull, hhd, if_pos hwait]
    ring
  · unfold rateLimitStep
    rw [if_pos hfull, hhd, if_pos hwait]
    have : (0 : ℚ) < 1 / 10 := by norm_num
    linarith

/-- Witness for C4 amended: with 180 calls logged at time 0, the next call
at time 0 proceeds only at time 60.1, strictly after the oldest call has
left the window. -/
theorem C4_amended_blocking_witness :
    (rateLimitStep (List.replicate 180 0) 0).2 = 0 + API_RATE_WINDOW + 1 / 10 ∧
    0 + API_RATE_WINDOW < (rateLimitStep (List.replicate 180 0) 0).2 :=
  C4_amended_blocking (List.replicate 180 0) 0 0
    (by rw [pruneLog_replicate_same, List.length_replicate]; exact le_rfl)
    (by rw [pruneLog_replicate_same, List.replicate_succ]; rfl)

/-- The Phase 2 aggregation only ever returns codes it was given. -/
theorem run_individual_subset (codes : List String) (check : String → CheckOutcome) :
    run_individual codes check ⊆ codes :=
  List.filter_subset' codes

/-- The SOE batch filter only ever returns codes it was given. -/
theorem filter_soe_subset (df : List ControllerRow) (codes : List String) :
    filter_soe df codes ⊆ codes := by
  unfold filter_soe
  split_ifs
  · exact fun _ h => h
  · exact List.filter_subset' codes

/-- The dividend batch filter only ever returns codes it was given. -/
theorem filter_dividends_subset (y : Nat) (dh : String → List DividendRow)
    (codes : List String) : filter_dividends y dh codes ⊆ codes :=
  List.filter_subset' codes

/-- The no-issuance batch filter only ever returns codes it was given. -/
theorem filter_no_issuance_subset (d : String) (idf bdf : List IssueRow)
    (codes : List String) : filter_no_issuance d idf bdf codes ⊆ codes :=
  List.filter_subset' codes

/-- The buyback batch filter only ever returns codes it was given. -/
theorem filter_buyback_subset (df : List BuybackRow) (codes : List String) :
    filter_buyback df codes ⊆ codes := by
  unfold filter_buyback
  split_ifs
  · exact fun _ h => h
  · exact List.filter_subset' codes

/-- The Phase 1 loop only shrinks the surviving set, provided each batch
filter does. -/
theorem phase1_subset :
    ∀ (fs : List (String × (List String → List String))) (codes : List String),
      (∀ pr ∈ fs, ∀ l, pr.2 l ⊆ l) → (phase1 fs codes).2 ⊆ codes
  | [], _, _ => fun _ h => h
  | (n, f) :: rest, codes, h => by
    have hf : ∀ l, f l ⊆ l := h (n, f) (List.mem_cons_self _ _)
    have hrest := phase1_subset rest (f codes)
      fun pr hpr => h pr (List.mem_cons_of_mem _ hpr)
    unfold phase1
    by_cases he : (f codes).isEmpty
    · simp only [he, if_true]
      exact hf codes
    · simp only [he, Bool.false_eq_true, if_false]
      exact fun c hc => hf codes (hrest hc)

/-- The Phase 2 loop only shrinks the surviving set. -/
theorem phase2_subset :
    ∀ (fs : List (String × (String → CheckOutcome))) (codes : List String),
      (phase2 fs codes).2 ⊆ codes
  | [], _ => fun _ h => h
  | (n, chk) :: rest, codes => by
    unfold phase2
    by_cases he : codes.isEmpty
    · simp only [he, if_true]
      exact fun _ h => h
    · simp only [he, Bool.false_eq_true, if_false]
      exact fun c hc =>
        run_individual_subset codes chk (phase2_subset rest (run_individual codes chk) hc)

/-- Membership in the filtered universe forces the board prefix and a clean
originating row. -/
theorem universeOf_mem (sl : List StockRow) (c : String)
    (hc : c ∈ universeOf sl) :
    (strStartsWith c "00" = true ∨ strStartsWith c "60" = true ∨
     strStartsWith c "30" = true ∨ strStartsWith c "68" = true) ∧
    ∃ r ∈ sl, zfill 6 r.code = c ∧ strContains r.name "ST" = false ∧
      strContains r.name "退" = false := by
  unfold universeOf at hc
  rw [List.mem_filterMap] at hc
  obtain ⟨r, hr, hfr⟩ := hc
  dsimp only at hfr
  by_cases h1 : (strContains r.name "ST" || strContains r.name "退") = true
  · rw [if_pos h1] at hfr
    cases hfr
  · rw [if_neg h1] at hfr
    by_cases h2 : (strStartsWith (zfill 6 r.code) "00" ||
        strStartsWith (zfill 6 r.code) "60" || strStartsWith (zfill 6 r.code) "30" ||
        strStartsWith (zfill 6 r.code) "68") = true
    · rw [if_pos h2] at hfr
      have hcode : zfill 6 r.code = c := by
        injection hfr
      simp only [Bool.or_eq_true, Bool.not_eq_true] at h1 h2
      push_neg at h1
      constructor
      · rw [← hcode]
        tauto
      · refine ⟨r, hr, hcode, ?_, ?_⟩
        · cases hst : strContains r.name "ST"
          · rfl
          · exact absurd hst h1.1
        · cases hst : strContains r.name "退"
          · rfl
          · exact absurd hst h1.2
    · rw [if_neg h2] at hfr
      cases hfr

/-- Padding a string of at most six characters to width six yields exactly
six characters. -/
theorem zfill_length_of_le (s : String) (h : s.length ≤ 6) :
    (zfill 6 s).length = 6 := by
  unfold zfill
  by_cases hlt : s.length < 6
  · rw [if_pos hlt]
    rw [String.length_append]
    simp only [String.length_mk, List.length_replicate]
    omega
  · rw [if_neg hlt]
    omega

/-- C10: every code in the screening result starts with one of the four
board prefixes 00, 60, 30, 68 and originates from a listed row whose
display name contains neither ST nor 退 — Beijing-board and
ST/delisting-flagged stocks are excluded before any criterion runs; and
when every raw code in the stock list has at most six characters (as the
upstream six-digit symbols do), every surviving code has exactly six. -/
theorem C10_universe_invariant (env : DataEnv) (sel : Option (List Nat)) :
    (∀ c ∈ (screen env sel).passed,
      (strStartsWith c "00" = true ∨ strStartsWith c "60" = true ∨
       strStartsWith c "30" = true ∨ strStartsWith c "68" = true) ∧
      ∃ r ∈ env.stock_list, zfill 6 r.code = c ∧
        strContains r.name "ST" = false ∧ strContains r.name "退" = false) ∧
    ((∀ r ∈ env.stock_list, r.code.length ≤ 6) →
      ∀ c ∈ (screen env sel).passed, c.length = 6) := by
  have hbatch : ∀ pr ∈ ((batchFilters env).filter
      (fun t => (sel.getD [1, 2, 3, 4, 5, 6, 7, 8]).contains t.1)).map (fun t => t.2),
      ∀ l, pr.2 l ⊆ l := by
    intro pr hpr l
    simp only [List.mem_map, List.mem_filter, batchFilters] at hpr
    obtain ⟨t, ⟨ht, _⟩, hteq⟩ := hpr
    subst hteq
    simp only [List.mem_cons, List.not_mem_nil, or_false] at ht
    rcases ht with h | h | h | h <;> subst h
    · exact filter_soe_subset _ l
    · exact filter_dividends_subset _ _ l
    · exact filter_no_issuance_subset _ _ _ l
    · exact filter_buyback_subset _ l
  have hpass : ∀ c ∈ (screen env sel).passed, c ∈ universeOf env.stock_list := by
    intro c hc
    have hdef : (screen env sel).passed =
        (phase2 (((individualFilters env).filter
            (fun t => (sel.getD [1, 2, 3, 4, 5, 6, 7, 8]).contains t.1)).map (fun t => t.2))
          (phase1 (((batchFilters env).filter
              (fun t => (sel.getD [1, 2, 3, 4, 5, 6, 7, 8]).contains t.1)).map (fun t => t.2))
            (universeOf env.stock_list)).2).2 := rfl
    rw [hdef] at hc
    exact phase1_subset _ _ hbatch (phase2_subset _ _ hc)
  constructor
  · exact fun c hc => universeOf_mem env.stock_list c (hpass c hc)
  · intro hlen c hc
    obtain ⟨_, r, hr, heq, _, _⟩ := universeOf_mem env.stock_list c (hpass c hc)
    rw [← heq]
    exact zfill_length_of_le r.code (hlen r hr)

/-- A tiny concrete data environment: one clean main-board stock, one
Beijing-board stock and one ST-flagged stock, with every dataset empty. -/
def env0 : DataEnv :=
  { stock_list := [⟨"600000", "浦发银行"⟩, ⟨"430047", "诺思兰德"⟩, ⟨"600001", "ST邯郸"⟩]
    controller_df := []
    dividend_history := fun _ => []
    issuance_df := []
    bond_df := []
    buyback_df := []
    stock_info := fun _ => []
    profit_statement := fun _ => []
    balance_sheet := fun _ => []
    pledge_df := []
    current_year := 2025
    five_years_ago := "2020-10-12" }

/-- Witness for C10: in the concrete environment the clean main-board code
survives (with no criteria selected the pipeline is the pure universe
filter) and has exactly six characters. -/
theorem C10_universe_invariant_witness :
    "600000" ∈ (screen env0 (some [])).passed ∧ "600000".length = 6 :=
  ⟨by decide,
   (C10_universe_invariant env0 (some [])).2 (by decide) "600000" (by decide)⟩

end AshareScreener
